import Mathlib

/-!
Verification of the MiniDataLoader core (src/src/dataloader.ts).

The TypeScript class owns a mutable queue of pending requests; `load`
pushes one request and schedules a dispatch via
queueMicrotask of a closure that in turn calls process.nextTick with
dispatchQueue; `dispatchQueue` snapshots and clears the queue and, when the
snapshot is non-empty, invokes the user-supplied batch loader once and, on
fulfilment of its promise, resolves each queued promise with the response
entry at its index.

The embedding below is a small-step operational model of that class running
on a Node-style event loop with two deferred-task queues: the
continuation (microtask) queue fed by queueMicrotask and the next-tick
queue fed by process.nextTick.  Promises are entries of a table; the value a
promise is resolved with is an `Option V` because indexing a JavaScript
array out of range yields undefined (modelled as `none`).  The external
batch function is modelled by the `settle` event that fulfils or rejects
the promise returned by one in-flight batch call.
-/

/-- One entry of the loader queue: the requested key plus the identifier of
the promise whose resolve callback was captured (source: QueueItem, fields
key and resolve). -/
structure QueueItem (K : Type) where
  key : K
  pid : Nat
  deriving Repr, DecidableEq

/-- State of one JavaScript promise.  The source captures only the resolve
callback, and the value it is called with may be undefined, hence
`fulfilled (v : Option V)`; the `rejected` state exists in the host promise
machinery and is included so that its unreachability can be proved. -/
inductive PromiseState (V E : Type) where
  | pending
  | fulfilled (value : Option V)
  | rejected (error : E)
  deriving Repr, DecidableEq

/-- The only callback the source ever puts on the microtask queue is the
closure passed to queueMicrotask, whose body schedules dispatchQueue on the
next-tick queue. -/
inductive Microtask where
  | armDispatch
  deriving Repr, DecidableEq

/-- The only callback the source ever puts on the next-tick queue is
dispatchQueue itself. -/
inductive TickTask where
  | dispatch
  deriving Repr, DecidableEq

/-- Settling behaviour of the promise returned by one call of the external
batch function: it either resolves with a list of values or rejects with an
error. -/
inductive Outcome (V E : Type) where
  | resolve (values : List V)
  | reject (error : E)
  deriving Repr, DecidableEq

/-- The run-time state: the loader instance (its `queue` field), the two
host task queues, the table of promises handed out by `load`, the log of
key lists the batch function has been invoked with, and the snapshots of
batches whose returned promise has not yet settled. -/
structure LoaderState (K V E : Type) where
  queue : List (QueueItem K)
  microtasks : List Microtask
  nextTicks : List TickTask
  promises : List (PromiseState V E)
  loaderCalls : List (List K)
  inFlight : List (List (QueueItem K))
  deriving Repr, DecidableEq

variable {K V E : Type}

/-- A freshly constructed MiniDataLoader: empty queue, nothing scheduled,
no promises handed out, batch function never called. -/
def initState : LoaderState K V E :=
  { queue := [], microtasks := [], nextTicks := [], promises := []
  , loaderCalls := [], inFlight := [] }

/-- Calling the resolve callback of promise `i` with value `v`: a settled
promise ignores further resolution, a pending one becomes fulfilled. -/
def resolveAt : List (PromiseState V E) → Nat → Option V → List (PromiseState V E)
  | [], _, _ => []
  | p :: ps, 0, v => (match p with | .pending => .fulfilled v | q => q) :: ps
  | p :: ps, n + 1, v => p :: resolveAt ps n v

/-- The fulfilment handler of the batch promise
(currentQueue.forEach with item.resolve applied to the response entry at
the item index): walks the snapshot, resolving each captured promise with
`response.get? index`, which is `none` past the end of the response exactly
as a JavaScript array read out of range yields undefined. -/
def deliver : List (QueueItem K) → Nat → List V → List (PromiseState V E) → List (PromiseState V E)
  | [], _, _, ps => ps
  | item :: rest, index, response, ps =>
      deliver rest (index + 1) response (resolveAt ps item.pid (response.get? index))

/-- dispatchQueue: copy the queue, clear the live queue, and when the copy
is non-empty extract the key list, invoke the batch function with it
(logged in `loaderCalls`) and register the snapshot as an in-flight batch
awaiting the settling of the returned promise. -/
def dispatchQueue (s : LoaderState K V E) : LoaderState K V E :=
  let currentQueue := s.queue
  if currentQueue.length > 0 then
    { s with queue := []
           , loaderCalls := s.loaderCalls ++ [currentQueue.map QueueItem.key]
           , inFlight := s.inFlight ++ [currentQueue] }
  else
    { s with queue := [] }

/-- load: create a fresh promise (identifier = current table size), push the
key together with its resolve callback onto the queue, and call
queueMicrotask with the closure that will schedule dispatchQueue on the
next-tick queue.  Nothing else happens synchronously. -/
def load (k : K) (s : LoaderState K V E) : LoaderState K V E :=
  { s with queue := s.queue ++ [{ key := k, pid := s.promises.length }]
         , microtasks := s.microtasks ++ [Microtask.armDispatch]
         , promises := s.promises ++ [PromiseState.pending] }

/-- Execution of one microtask: the closure queued by `load` runs
process.nextTick with dispatchQueue, i.e. appends the dispatch to the
next-tick queue. -/
def runMicro (t : Microtask) (s : LoaderState K V E) : LoaderState K V E :=
  match t with
  | .armDispatch => { s with nextTicks := s.nextTicks ++ [TickTask.dispatch] }

/-- Execution of one next-tick callback: the only such callback is
dispatchQueue. -/
def runTick (t : TickTask) (s : LoaderState K V E) : LoaderState K V E :=
  match t with
  | .dispatch => dispatchQueue s

/-- Fuel-indexed event-loop scheduler.  After the synchronous burst returns,
Node drains the process.nextTick queue with priority over the microtask
queue; each step consumes the head of the preferred queue. -/
def drainAux : Nat → LoaderState K V E → LoaderState K V E
  | 0, s => s
  | fuel + 1, s =>
    match s.nextTicks with
    | t :: rest => drainAux fuel (runTick t { s with nextTicks := rest })
    | [] =>
      match s.microtasks with
      | m :: rest => drainAux fuel (runMicro m { s with microtasks := rest })
      | [] => s

/-- Run the event loop until both task queues are empty.  Each microtask the
source creates schedules at most one next-tick callback and next-tick
callbacks schedule nothing, so twice the microtask count plus the next-tick
count is enough fuel. -/
def drain (s : LoaderState K V E) : LoaderState K V E :=
  drainAux (2 * s.microtasks.length + s.nextTicks.length) s

/-- A synchronous burst of load calls, in order, with no intervening await:
no task queue is serviced between the calls. -/
def burst : List K → LoaderState K V E → LoaderState K V E
  | [], s => s
  | k :: ks, s => burst ks (load k s)

/-- The queue items a burst appends when the promise table already has
`b` entries: item `j` of the burst carries promise identifier `b + j`. -/
def mkItems : Nat → List K → List (QueueItem K)
  | _, [] => []
  | b, k :: ks => { key := k, pid := b } :: mkItems (b + 1) ks

/-- Settling of the promise returned by the in-flight batch call at
position `i`.  On fulfilment the source-attached handler delivers the
response positionally; on rejection no handler was attached, so the
promise table is untouched. -/
def settleStep (i : Nat) (o : Outcome V E) (s : LoaderState K V E) : LoaderState K V E :=
  match s.inFlight.get? i with
  | none => s
  | some snapshot =>
    match o with
    | .resolve response =>
        { s with inFlight := s.inFlight.eraseIdx i
               , promises := deliver snapshot 0 response s.promises }
    | .reject _ =>
        { s with inFlight := s.inFlight.eraseIdx i }

/-- External events driving the model: a load call from application code,
the host running one microtask, the host running one next-tick callback,
and the settling of one in-flight batch promise. -/
inductive Event (K V E : Type) where
  | load (key : K)
  | runMicrotask
  | runNextTick
  | settle (i : Nat) (o : Outcome V E)

/-- Effect of one event on the state. -/
def execEvent : Event K V E → LoaderState K V E → LoaderState K V E
  | .load k, s => load k s
  | .runMicrotask, s =>
      match s.microtasks with
      | [] => s
      | m :: rest => runMicro m { s with microtasks := rest }
  | .runNextTick, s =>
      match s.nextTicks with
      | [] => s
      | t :: rest => runTick t { s with nextTicks := rest }
  | .settle i o, s => settleStep i o s

/-- Run of an event trace from a freshly constructed loader. -/
def run (events : List (Event K V E)) : LoaderState K V E :=
  events.foldl (fun s e => execEvent e s) initState

/-! Helper lemmas about the burst and the event-loop drain. -/

theorem mkItems_map_key (b : Nat) (ks : List K) :
    (mkItems b ks).map QueueItem.key = ks := by
  induction ks generalizing b with
  | nil => rfl
  | cons k ks ih => simp [mkItems, ih]

theorem mkItems_length (b : Nat) (ks : List K) :
    (mkItems b ks).length = ks.length := by
  induction ks generalizing b with
  | nil => rfl
  | cons k ks ih => simp [mkItems, ih]

theorem mkItems_pid_bound (b : Nat) (ks : List K) :
    ∀ x ∈ mkItems b ks, b ≤ x.pid ∧ x.pid < b + ks.length := by
  induction ks generalizing b with
  | nil => simp [mkItems]
  | cons k ks ih =>
    intro x hx
    simp only [mkItems, List.mem_cons] at hx
    rcases hx with rfl | hx
    · refine ⟨Nat.le_refl b, ?_⟩
      show b < b + (ks.length + 1)
      omega
    · have h := ih (b + 1) x hx
      simp only [List.length_cons]
      omega

theorem burst_eq (ks : List K) (s : LoaderState K V E) :
    burst ks s =
      { s with queue := s.queue ++ mkItems s.promises.length ks
             , microtasks := s.microtasks ++ List.replicate ks.length Microtask.armDispatch
             , promises := s.promises ++ List.replicate ks.length PromiseState.pending } := by
  induction ks generalizing s with
  | nil => simp [burst, mkItems]
  | cons k ks ih =>
    simp only [burst]
    rw [ih]
    simp [load, mkItems, List.replicate_succ]

theorem drainAux_noop (n : Nat) (s : LoaderState K V E)
    (hq : s.queue = []) (hnt : s.nextTicks = [])
    (hmt : s.microtasks = List.replicate n Microtask.armDispatch) :
    drainAux (2 * n) s = { s with microtasks := [], nextTicks := [] } := by
  induction n generalizing s with
  | zero =>
    obtain ⟨q, mt, nt, ps, lc, fl⟩ := s
    simp only at hq hnt hmt
    subst hq hnt
    simp only [List.replicate] at hmt
    subst hmt
    rfl
  | succ m ih =>
    obtain ⟨q, mt, nt, ps, lc, fl⟩ := s
    simp only at hq hnt hmt
    subst hq hnt hmt
    have h2 : 2 * (m + 1) = 2 * m + 1 + 1 := by ring
    rw [h2]
    simp only [drainAux, List.replicate_succ, runMicro, runTick, dispatchQueue,
      List.length_nil, List.append_nil, List.nil_append]
    exact ih _ rfl rfl rfl

theorem drain_burst (ks : List K) (s : LoaderState K V E)
    (hne : ks ≠ []) (hq : s.queue = []) (hmt : s.microtasks = [])
    (hnt : s.nextTicks = []) :
    drain (burst ks s) =
      { s with queue := [], microtasks := [], nextTicks := []
             , promises := s.promises ++ List.replicate ks.length PromiseState.pending
             , loaderCalls := s.loaderCalls ++ [ks]
             , inFlight := s.inFlight ++ [mkItems s.promises.length ks] } := by
  obtain ⟨q, mt, nt, ps, lc, fl⟩ := s
  simp only at hq hmt hnt
  subst hq hmt hnt
  cases ks with
  | nil => exact absurd rfl hne
  | cons k tl =>
    rw [burst_eq]
    simp only [drain, List.nil_append, List.length_replicate, List.length_nil,
      List.length_cons, Nat.add_zero]
    have h2 : 2 * (tl.length + 1) = 2 * tl.length + 1 + 1 := by ring
    rw [h2]
    simp only [drainAux, List.replicate_succ, runMicro, runTick, dispatchQueue,
      mkItems, List.length_cons, List.nil_append, List.append_nil,
      Nat.zero_lt_succ, if_pos, gt_iff_lt, List.map_cons, mkItems_map_key]
    exact drainAux_noop tl.length _ rfl rfl rfl

theorem resolveAt_append_pending (pre rest : List (PromiseState V E)) (v : Option V) :
    resolveAt (pre ++ PromiseState.pending :: rest) pre.length v
      = pre ++ PromiseState.fulfilled v :: rest := by
  induction pre with
  | nil => rfl
  | cons p ps ih => simp [resolveAt, ih]

theorem deliver_mkItems (ks : List K) (vs : List V) (i : Nat)
    (pre : List (PromiseState V E)) :
    deliver (mkItems pre.length ks) i vs
        (pre ++ List.replicate ks.length PromiseState.pending)
      = pre ++ (List.range ks.length).map
          (fun j => PromiseState.fulfilled (vs.get? (i + j))) := by
  induction ks generalizing i pre with
  | nil => simp [mkItems, deliver]
  | cons k ks ih =>
    simp only [mkItems, deliver, List.length_cons, List.replicate_succ]
    rw [resolveAt_append_pending]
    have hlen : (pre ++ [PromiseState.fulfilled (vs.get? i)]).length = pre.length + 1 := by
      simp
    have happ : pre ++ PromiseState.fulfilled (vs.get? i) :: List.replicate ks.length PromiseState.pending
        = (pre ++ [PromiseState.fulfilled (vs.get? i)]) ++ List.replicate ks.length PromiseState.pending := by
      simp
    rw [happ, ← hlen, ih]
    simp only [List.range_succ_eq_map, List.map_cons, List.map_map, List.append_assoc,
      List.cons_append, List.nil_append, Nat.add_zero]
    refine congrArg (fun t => pre ++ PromiseState.fulfilled (vs.get? i) :: t) ?_
    refine List.map_congr_left ?_
    intro j hj
    simp only [Function.comp]
    have harith : i + 1 + j = i + (j + 1) := by omega
    rw [harith]

/-! Helper lemmas for the trace invariant that no promise is ever rejected. -/

theorem mem_resolveAt (ps : List (PromiseState V E)) (i : Nat) (v : Option V)
    (p : PromiseState V E) (hp : p ∈ resolveAt ps i v) :
    p ∈ ps ∨ p = PromiseState.fulfilled v := by
  induction ps generalizing i with
  | nil => simp [resolveAt] at hp
  | cons q qs ih =>
    cases i with
    | zero =>
      simp only [resolveAt, List.mem_cons] at hp
      rcases hp with hp | hp
      · cases q with
        | pending => exact Or.inr hp
        | fulfilled w => exact Or.inl (by simp [hp])
        | rejected er => exact Or.inl (by simp [hp])
      · exact Or.inl (List.mem_cons_of_mem q hp)
    | succ n =>
      simp only [resolveAt, List.mem_cons] at hp
      rcases hp with rfl | hp
      · exact Or.inl (List.mem_cons_self p qs)
      · rcases ih n hp with h | h
        · exact Or.inl (List.mem_cons_of_mem q h)
        · exact Or.inr h

theorem mem_deliver (snap : List (QueueItem K)) (i : Nat) (vs : List V)
    (ps : List (PromiseState V E)) (p : PromiseState V E)
    (hp : p ∈ deliver snap i vs ps) :
    p ∈ ps ∨ ∃ v, p = PromiseState.fulfilled v := by
  induction snap generalizing i ps with
  | nil => exact Or.inl hp
  | cons item rest ih =>
    rcases ih (i + 1) _ hp with h | h
    · rcases mem_resolveAt _ _ _ _ h with h2 | h2
      · exact Or.inl h2
      · exact Or.inr ⟨_, h2⟩
    · exact Or.inr h

theorem dispatchQueue_promises (s : LoaderState K V E) :
    (dispatchQueue s).promises = s.promises := by
  unfold dispatchQueue
  by_cases h : s.queue.length > 0 <;> simp [h]

theorem execEvent_noRejected (e : Event K V E) (s : LoaderState K V E)
    (hs : ∀ p ∈ s.promises, ∀ er, p ≠ PromiseState.rejected er) :
    ∀ p ∈ (execEvent e s).promises, ∀ er, p ≠ PromiseState.rejected er := by
  cases e with
  | load k =>
    intro p hp er
    simp only [execEvent, load, List.mem_append, List.mem_singleton] at hp
    rcases hp with hp | rfl
    · exact hs p hp er
    · simp
  | runMicrotask =>
    intro p hp er
    cases hmt : s.microtasks with
    | nil => rw [execEvent, hmt] at hp; exact hs p hp er
    | cons m rest =>
      rw [execEvent, hmt] at hp
      cases m
      exact hs p hp er
  | runNextTick =>
    intro p hp er
    cases hnt : s.nextTicks with
    | nil => rw [execEvent, hnt] at hp; exact hs p hp er
    | cons t rest =>
      rw [execEvent, hnt] at hp
      cases t
      simp only [runTick] at hp
      rw [dispatchQueue_promises] at hp
      exact hs p hp er
  | settle i o =>
    intro p hp er
    rw [execEvent, settleStep] at hp
    cases hfl : s.inFlight.get? i with
    | none => rw [hfl] at hp; exact hs p hp er
    | some snapshot =>
      rw [hfl] at hp
      cases o with
      | resolve response =>
        simp only at hp
        rcases mem_deliver _ _ _ _ _ hp with h | ⟨v, rfl⟩
        · exact hs p h er
        · simp
      | reject err => exact hs p hp er

theorem foldl_noRejected (events : List (Event K V E)) (s : LoaderState K V E)
    (hs : ∀ p ∈ s.promises, ∀ er, p ≠ PromiseState.rejected er) :
    ∀ p ∈ (events.foldl (fun s e => execEvent e s) s).promises,
      ∀ er, p ≠ PromiseState.rejected er := by
  induction events generalizing s with
  | nil => exact hs
  | cons e es ih => exact ih _ (execEvent_noRejected e s hs)

/-! Shared characterisation of one window settled with a resolved response. -/

theorem settle_resolve_promises (ks : List K) (vs : List V) (hne : ks ≠ []) :
    (settleStep 0 (Outcome.resolve vs)
        (drain (burst ks (initState : LoaderState K V E)))).promises
      = (List.range ks.length).map (fun j => PromiseState.fulfilled (vs.get? j)) := by
  rw [drain_burst ks initState hne rfl rfl rfl]
  have hd := deliver_mkItems ks vs 0 ([] : List (PromiseState V E))
  simp only [List.length_nil, List.nil_append, Nat.zero_add] at hd
  simp only [settleStep, initState, List.nil_append, List.length_nil, List.get?_cons_zero]
  exact hd

/-- C1: for N lookups issued within one synchronous burst (no intervening
await), the batch function is invoked exactly once for that window, and it
receives exactly the key list in queue order: the loader-call log after the
event loop drains is the single entry holding the burst keys. -/
theorem C1_burst_batches_once (ks : List K) (h : ks ≠ []) :
    (drain (burst ks (initState : LoaderState K V E))).loaderCalls = [ks] := by
  rw [drain_burst ks initState h rfl rfl rfl]
  rfl

/-- C1 witness: a concrete three-key burst yields exactly one batch call
with the keys in order. -/
theorem C1_burst_batches_once_witness :
    ([1, 2, 3] : List Nat) ≠ [] ∧
      (drain (burst [1, 2, 3] (initState : LoaderState Nat Nat String))).loaderCalls
        = [[1, 2, 3]] :=
  ⟨by decide, C1_burst_batches_once [1, 2, 3] (by decide)⟩

/-- C2: when the batch promise of a window resolves with a value list of the
same length as the key list, the promise of the i-th queued load is pending
before the settlement and fulfilled with the i-th value after it, so each
sink is fulfilled exactly once and positionally. -/
theorem C2_positional_delivery (ks : List K) (vs : List V) (i : Nat)
    (hne : ks ≠ []) (hlen : vs.length = ks.length) (hi : i < ks.length) :
    (drain (burst ks (initState : LoaderState K V E))).promises.get? i
        = some PromiseState.pending ∧
    (settleStep 0 (Outcome.resolve vs)
        (drain (burst ks (initState : LoaderState K V E)))).promises.get? i
        = some (PromiseState.fulfilled (vs.get? i)) ∧
    (vs.get? i).isSome = true := by
  refine ⟨?_, ?_, ?_⟩
  · rw [drain_burst ks initState hne rfl rfl rfl]
    simp only [initState, List.nil_append, List.get?_eq_getElem?, List.getElem?_replicate]
    simp [hi]
  · rw [settle_resolve_promises ks vs hne]
    rw [List.get?_map, List.get?_range hi]
    rfl
  · rw [List.get?_eq_get (by omega : i < vs.length)]
    rfl

/-- C2 witness: a concrete two-key window delivered positionally. -/
theorem C2_positional_delivery_witness :
    (([1, 2] : List Nat) ≠ [] ∧ ([10, 20] : List Nat).length = ([1, 2] : List Nat).length
        ∧ 1 < ([1, 2] : List Nat).length) ∧
    ((drain (burst [1, 2] (initState : LoaderState Nat Nat String))).promises.get? 1
        = some PromiseState.pending ∧
      (settleStep 0 (Outcome.resolve [10, 20])
          (drain (burst [1, 2] (initState : LoaderState Nat Nat String)))).promises.get? 1
        = some (PromiseState.fulfilled (([10, 20] : List Nat).get? 1)) ∧
      (([10, 20] : List Nat).get? 1).isSome = true) :=
  ⟨⟨by decide, by decide, by decide⟩,
    C2_positional_delivery [1, 2] [10, 20] 1 (by decide) (by decide) (by decide)⟩

/-- C3: each flush passes exactly the keys queued since the previous flush
(or construction) in order, clears the live queue, and a load issued while
the first batch is still in flight lands in a disjoint later batch: both
snapshots are logged separately, both are simultaneously in flight, and
their captured promises are disjoint. -/
theorem C3_flush_window_separation (ks1 ks2 : List K) (h1 : ks1 ≠ []) (h2 : ks2 ≠ []) :
    (drain (burst ks1 (initState : LoaderState K V E))).queue = [] ∧
    (drain (burst ks2 (drain (burst ks1 (initState : LoaderState K V E))))).loaderCalls
        = [ks1, ks2] ∧
    (drain (burst ks2 (drain (burst ks1 (initState : LoaderState K V E))))).inFlight
        = [mkItems 0 ks1, mkItems ks1.length ks2] ∧
    ∀ a ∈ mkItems 0 ks1, ∀ c ∈ mkItems ks1.length ks2, a.pid ≠ c.pid := by
  have hs1 := drain_burst ks1 (initState : LoaderState K V E) h1 rfl rfl rfl
  refine ⟨by rw [hs1], ?_, ?_, ?_⟩
  · rw [hs1, drain_burst ks2 _ h2 rfl rfl rfl]
    rfl
  · rw [hs1, drain_burst ks2 _ h2 rfl rfl rfl]
    simp [initState]
  · intro a ha c hc
    have hb1 := mkItems_pid_bound 0 ks1 a ha
    have hb2 := mkItems_pid_bound ks1.length ks2 c hc
    omega

/-- C3 witness: two concrete one-key windows flushed in separate batches
with disjoint promises. -/
theorem C3_flush_window_separation_witness :
    (([1] : List Nat) ≠ [] ∧ ([2] : List Nat) ≠ []) ∧
    ((drain (burst [1] (initState : LoaderState Nat Nat String))).queue = [] ∧
      (drain (burst [2] (drain (burst [1] (initState : LoaderState Nat Nat String))))).loaderCalls
          = [[1], [2]] ∧
      (drain (burst [2] (drain (burst [1] (initState : LoaderState Nat Nat String))))).inFlight
          = [mkItems 0 [1], mkItems ([1] : List Nat).length [2]] ∧
      ∀ a ∈ mkItems 0 ([1] : List Nat), ∀ c ∈ mkItems ([1] : List Nat).length [2],
        a.pid ≠ c.pid) :=
  ⟨⟨by decide, by decide⟩,
    C3_flush_window_separation [1] [2] (by decide) (by decide)⟩

/-- C4: behaviour of the source at the failing input.  The batch promise for
the window [7, 8] rejects, and because dispatchQueue attaches only a
fulfilment handler to it, both captured promises remain pending instead of
being fulfilled with the failure; a later load(9) in a new window still
triggers a fresh batch call. -/
theorem C4_rejection_leaves_promises_pending :
    (settleStep 0 (Outcome.reject "E")
        (drain (burst [7, 8] (initState : LoaderState Nat Nat String)))).promises
      = [PromiseState.pending, PromiseState.pending] ∧
    (drain (burst [9] (settleStep 0 (Outcome.reject "E")
        (drain (burst [7, 8] (initState : LoaderState Nat Nat String)))))).loaderCalls
      = [[7, 8], [9]] := by
  decide

/-- C5 as stated is false of the source: load has no armed-flush flag, so
the second load of a burst schedules a further dispatch rather than only
appending; after two loads two deferred dispatch stages are scheduled, not
one. -/
theorem C5_counterexample :
    ¬ ((load 2 (load 1 (initState : LoaderState Nat Nat String))).microtasks.length
        + (load 2 (load 1 (initState : LoaderState Nat Nat String))).nextTicks.length
        = 1) := by
  decide

/-- C5 amended: every load of a burst, not only the first, schedules a
dispatch (one microtask per load); the batch function is nevertheless
invoked exactly once per window because every dispatch after the first
finds the queue already cleared. -/
theorem C5_every_load_schedules (ks : List K) (h : ks ≠ []) :
    (burst ks (initState : LoaderState K V E)).microtasks.length = ks.length ∧
    (drain (burst ks (initState : LoaderState K V E))).loaderCalls.length = 1 := by
  constructor
  · rw [burst_eq]
    simp [initState]
  · rw [drain_burst ks initState h rfl rfl rfl]
    rfl

/-- C5 witness: a concrete two-load burst schedules two dispatches yet
produces a single batch call. -/
theorem C5_every_load_schedules_witness :
    ([1, 2] : List Nat) ≠ [] ∧
      ((burst [1, 2] (initState : LoaderState Nat Nat String)).microtasks.length
          = ([1, 2] : List Nat).length ∧
        (drain (burst [1, 2] (initState : LoaderState Nat Nat String))).loaderCalls.length
          = 1) :=
  ⟨by decide, C5_every_load_schedules [1, 2] (by decide)⟩

/-- C6 as stated is false of the source: immediately after a load the
next-tick queue (the outer event-loop tier) is empty and the armed stage
sits on the continuation (microtask) queue, so the first stage of the
two-stage deferral is not an outer-event-loop deferral. -/
theorem C6_counterexample :
    ¬ ((load 1 (initState : LoaderState Nat Nat String)).nextTicks.length = 1 ∧
       (load 1 (initState : LoaderState Nat Nat String)).microtasks.length = 0) := by
  decide

/-- C6 amended: the two-stage deferral runs the two tiers in the opposite
order to the one claimed: load enqueues a continuation-queue (microtask)
stage, that stage when run enqueues the actual flush on the next-tick
queue, and that next-tick callback performs dispatchQueue. -/
theorem C6_deferral_order (k : K) (s : LoaderState K V E) :
    (load k s).microtasks = s.microtasks ++ [Microtask.armDispatch] ∧
    (load k s).nextTicks = s.nextTicks ∧
    runMicro Microtask.armDispatch s
      = { s with nextTicks := s.nextTicks ++ [TickTask.dispatch] } ∧
    runTick TickTask.dispatch s = dispatchQueue s :=
  ⟨rfl, rfl, rfl, rfl⟩

/-- C7: duplicate keys in one burst are not deduplicated: two loads of key 5
produce the batch call [5, 5], and the two requests are fulfilled
independently from their own positions of the returned values. -/
theorem C7_no_deduplication :
    (drain (burst [5, 5] (initState : LoaderState Nat Nat String))).loaderCalls
      = [[5, 5]] ∧
    (settleStep 0 (Outcome.resolve [50, 51])
        (drain (burst [5, 5] (initState : LoaderState Nat Nat String)))).promises
      = [PromiseState.fulfilled (some 50), PromiseState.fulfilled (some 51)] := by
  decide

/-- C8: load is synchronous and local: it never invokes the batch function
(the call log and the in-flight set are untouched, and nothing is added to
the next-tick queue), and its only effects are appending one request to the
queue, scheduling one deferral stage, and handing out one fresh pending
promise, which is the result handle returned to the caller. -/
theorem C8_load_frame (k : K) (s : LoaderState K V E) :
    (load k s).loaderCalls = s.loaderCalls ∧
    (load k s).inFlight = s.inFlight ∧
    (load k s).nextTicks = s.nextTicks ∧
    (load k s).queue = s.queue ++ [{ key := k, pid := s.promises.length }] ∧
    (load k s).microtasks = s.microtasks ++ [Microtask.armDispatch] ∧
    (load k s).promises.get? s.promises.length = some PromiseState.pending :=
  ⟨rfl, rfl, rfl, rfl, rfl, List.get?_concat_length _ _⟩

/-- C9: when the batch response is shorter than the key list, the promise at
an uncovered position is fulfilled with the absent value (the undefined
array read), not failed and not left pending. -/
theorem C9_short_response_absent_value (ks : List K) (vs : List V) (i : Nat)
    (hne : ks ≠ []) (hi : i < ks.length) (hshort : vs.length ≤ i) :
    (settleStep 0 (Outcome.resolve vs)
        (drain (burst ks (initState : LoaderState K V E)))).promises.get? i
      = some (PromiseState.fulfilled none) := by
  have hnone : vs.get? i = none := List.get?_eq_none.mpr hshort
  rw [settle_resolve_promises ks vs hne]
  rw [List.get?_map, List.get?_range hi]
  show some (PromiseState.fulfilled (vs.get? i)) = some (PromiseState.fulfilled none)
  rw [hnone]

/-- C9 witness: a two-key window answered with a single value fulfils the
second promise with the absent value. -/
theorem C9_short_response_absent_value_witness :
    (([1, 2] : List Nat) ≠ [] ∧ 1 < ([1, 2] : List Nat).length
        ∧ ([10] : List Nat).length ≤ 1) ∧
    (settleStep 0 (Outcome.resolve [10])
        (drain (burst [1, 2] (initState : LoaderState Nat Nat String)))).promises.get? 1
      = some (PromiseState.fulfilled none) :=
  ⟨⟨by decide, by decide, by decide⟩,
    C9_short_response_absent_value [1, 2] [10] 1 (by decide) (by decide) (by decide)⟩

/-- C10: the future returned by load is never rejected.  Whatever trace of
loads, host task runs, and batch settlements (successful, rejecting, or
short) is executed, every promise in the table is pending or fulfilled;
none ever enters the rejected state, because load captures only the resolve
callback and dispatchQueue attaches no failure handler. -/
theorem C10_promise_never_rejected (events : List (Event K V E))
    (p : PromiseState V E) (hp : p ∈ (run events).promises) :
    ¬ ∃ er, p = PromiseState.rejected er := by
  rintro ⟨er, rfl⟩
  exact foldl_noRejected events initState (by simp [initState]) _ hp er rfl

/-- C10 witness: a concrete trace whose batch call rejects still leaves its
promise unrejected (pending). -/
theorem C10_promise_never_rejected_witness :
    PromiseState.pending ∈ (run ([Event.load 1, Event.runMicrotask, Event.runNextTick,
        Event.settle 0 (Outcome.reject "boom")] : List (Event Nat Nat String))).promises ∧
    ¬ ∃ er, (PromiseState.pending : PromiseState Nat String)
        = PromiseState.rejected er :=
  ⟨by decide,
    C10_promise_never_rejected
      ([Event.load 1, Event.runMicrotask, Event.runNextTick,
        Event.settle 0 (Outcome.reject "boom")] : List (Event Nat Nat String))
      PromiseState.pending (by decide)⟩

/-- C6 witness: the amended deferral order at a concrete load on a fresh
loader. -/
theorem C6_deferral_order_witness :
    (load 1 (initState : LoaderState Nat Nat String)).microtasks
        = (initState : LoaderState Nat Nat String).microtasks
            ++ [Microtask.armDispatch] ∧
    (load 1 (initState : LoaderState Nat Nat String)).nextTicks
        = (initState : LoaderState Nat Nat String).nextTicks ∧
    runMicro Microtask.armDispatch (initState : LoaderState Nat Nat String)
        = { (initState : LoaderState Nat Nat String) with
              nextTicks := (initState : LoaderState Nat Nat String).nextTicks
                ++ [TickTask.dispatch] } ∧
    runTick TickTask.dispatch (initState : LoaderState Nat Nat String)
        = dispatchQueue (initState : LoaderState Nat Nat String) :=
  C6_deferral_order 1 initState

/-- C8 witness: the frame property of load at a concrete key on a fresh
loader. -/
theorem C8_load_frame_witness :
    (load 1 (initState : LoaderState Nat Nat String)).loaderCalls
        = (initState : LoaderState Nat Nat String).loaderCalls ∧
    (load 1 (initState : LoaderState Nat Nat String)).inFlight
        = (initState : LoaderState Nat Nat String).inFlight ∧
    (load 1 (initState : LoaderState Nat Nat String)).nextTicks
        = (initState : LoaderState Nat Nat String).nextTicks ∧
    (load 1 (initState : LoaderState Nat Nat String)).queue
        = (initState : LoaderState Nat Nat String).queue
            ++ [{ key := 1
                , pid := (initState : LoaderState Nat Nat String).promises.length }] ∧
    (load 1 (initState : LoaderState Nat Nat String)).microtasks
        = (initState : LoaderState Nat Nat String).microtasks
            ++ [Microtask.armDispatch] ∧
    (load 1 (initState : LoaderState Nat Nat String)).promises.get?
        (initState : LoaderState Nat Nat String).promises.length
        = some PromiseState.pending :=
  C8_load_frame 1 initState
